import Mathlib

/-!
Shallow embedding of `src/ic706_server.c` (ic706-remote), the single-threaded
select-based bridge between a UART-connected IC-706 control head and one TCP
client, with a GPIO-emulated power button (PWK).

The event loop (`main`, lines 219-334) is modelled as a step function over an
explicit `ServerState`; each iteration consumes one `LoopInput` describing the
environment for that iteration (sampled time, readiness and decode results of
`transfer_data`, the outcome of `accept`, success of `send_keepalive`).

Helper routines living in `common.c` (not part of the examined sources) are
treated as the environment: `transfer_data` is abstracted by a `TdRes` input
carrying the decoded packet type, the counter deltas it applies to the
`xfr_buf`, and the byte left at `data[2]` of the network buffer;
`send_keepalive` is, modelled from the spec (§4.1: a write failure toward the
destination increments `writeErrors`), taken to return its error count, 0 on
success and 1 on failure; `gpio_set_value` is mirrored by the `gpioPwk`
field; `time_ms` supplies the `now` input.

Machine arithmetic: `current_time`, `last_keepalive` and `pwk_on_time` are
C `uint64_t`; the two guard subtractions are modelled by `sub64`, the exact
wrap-around subtraction modulo 2^64.
-/

/-- The modulus of C `uint64_t` arithmetic, 2^64. -/
def W64 : Nat := 2 ^ 64

/-- Wrap-around subtraction of `uint64_t` values: C's `a - b` on unsigned
64-bit operands (for `a < 2^64`; larger model values are first reduced). -/
def sub64 (a b : Nat) : Nat := (a + (W64 - b % W64)) % W64

/-- Packet type tags returned by `transfer_data` that `main` dispatches on:
`PKT_TYPE_INIT2`, `PKT_TYPE_EOS`, `PKT_TYPE_PWK`, `PKT_TYPE_EOF`; every other
return value falls into the `switch` default and is collapsed to `other`. -/
inductive PktType where
  | init2
  | eos
  | pwk
  | eofPkt
  | other
deriving DecidableEq, Repr

/-- Environment abstraction of one `transfer_data(src, dst, buf)` call: the
packet type it returns, the increments it applied to the buffer's
`valid_pkts` / `invalid_pkts` / `write_errors` counters, and the byte left at
`buf->data[2]` (read by `main` for `PKT_TYPE_PWK`). -/
structure TdRes where
  pkt : PktType
  dValid : Nat
  dInvalid : Nat
  dWErr : Nat
  data2 : Nat
deriving DecidableEq, Repr

/-- Outcome of the `accept` call when the listening socket is readable:
either `-1` (modelled `err`) or a new connection with its descriptor and the
peer's IPv4 address (`cli_addr.sin_addr.s_addr`, network byte order). -/
inductive AcceptRes where
  | err
  | conn (fd : Int) (addr : Nat)
deriving DecidableEq, Repr

/-- The counter part of `struct xfr_buf` (common.h): `valid_pkts`,
`invalid_pkts` (`uint64_t`) and `write_errors` (`uint32_t`).  The raw `data`
array and `wridx` cursor are owned by `transfer_data` and abstracted into
`TdRes` (deltas plus the observed `data[2]` byte). -/
structure XfrBuf where
  validPkts : Nat
  invalidPkts : Nat
  writeErrors : Nat
deriving DecidableEq, Repr

/-- Environment of one iteration of the `while (keep_running)` loop.
`sig = true` means a signal handler cleared `keep_running` before this
iteration's loop-condition check.  `uartEv` / `netEv` are `some` exactly when
`select` reported the UART / client descriptor readable (a select timeout or
error, `res <= 0`, is the all-`none` input); `acceptEv` likewise for the
listening socket.  `kaFail` is the failure of the periodic `send_keepalive`
(line 225, return value discarded by the code) and `ka2Fail` that of the
post-`Init2` `send_keepalive` (line 252, return value added to
`uart_buf.write_errors`). -/
structure LoopInput where
  sig : Bool
  now : Nat
  kaFail : Bool
  ka2Fail : Bool
  uartEv : Option TdRes
  netEv : Option TdRes
  acceptEv : Option AcceptRes
deriving DecidableEq, Repr

/-- The mutable state of `main` that survives between loop iterations,
together with two observables: `gpioPwk`, the value last written to the PWK
GPIO line (20), and `openClientFds`, the client-socket descriptors the
process currently holds open (tracking every client `accept`/`close`); the
ghost counter `kaSends` counts `send_keepalive` invocations. -/
structure ServerState where
  rigOn : Bool
  connected : Bool
  netFd : Int
  clientAddr : Nat
  pwkOnTime : Nat
  lastKeepalive : Nat
  gpioPwk : Bool
  uartBuf : XfrBuf
  netBuf : XfrBuf
  kaSends : Nat
  openClientFds : List Int
deriving DecidableEq, Repr

/-- Apply the counter increments of one `transfer_data` call to an
`xfr_buf`. -/
def applyTd (b : XfrBuf) (r : TdRes) : XfrBuf :=
  { validPkts := b.validPkts + r.dValid
    invalidPkts := b.invalidPkts + r.dInvalid
    writeErrors := b.writeErrors + r.dWErr }

/-- Lines 222-227: if the rig is on and more than 150 ms have passed since
`last_keepalive`, call `send_keepalive(uart_fd)` — its return value is
discarded — and set `last_keepalive = current_time`. -/
def keepalivePhase (i : LoopInput) (s : ServerState) : ServerState :=
  if s.rigOn ∧ sub64 i.now s.lastKeepalive > 150 then
    { s with kaSends := s.kaSends + 1, lastKeepalive := i.now }
  else s

/-- Lines 230-234: if `pwk_on_time` is nonzero and more than 500 ms have
passed since it, write 0 to the PWK GPIO and clear `pwk_on_time`. -/
def pwkPhase (i : LoopInput) (s : ServerState) : ServerState :=
  if s.pwkOnTime ≠ 0 ∧ sub64 i.now s.pwkOnTime > 500 then
    { s with gpioPwk := false, pwkOnTime := 0 }
  else s

/-- Lines 246-260: if the UART descriptor is readable, run
`transfer_data(uart_fd, net_fd, &uart_buf)` and dispatch on the packet type:
`PKT_TYPE_INIT2` sets `rig_is_on = 1`, sends a keepalive whose error count is
added to `uart_buf.write_errors`, and sets `last_keepalive = current_time`;
`PKT_TYPE_EOS` sets `rig_is_on = 0`. -/
def serviceUart (i : LoopInput) (s : ServerState) : ServerState :=
  match i.uartEv with
  | none => s
  | some r =>
    let sb : ServerState := { s with uartBuf := applyTd s.uartBuf r }
    match r.pkt with
    | PktType.init2 =>
      { sb with
        rigOn := true
        uartBuf := { sb.uartBuf with
          writeErrors := sb.uartBuf.writeErrors + (if i.ka2Fail then 1 else 0) }
        kaSends := sb.kaSends + 1
        lastKeepalive := i.now }
    | PktType.eos => { sb with rigOn := false }
    | _ => sb

/-- Lines 263-288: if a client is connected and its descriptor is readable,
run `transfer_data(net_fd, uart_fd, &net_buf)` and dispatch:
`PKT_TYPE_PWK` compares the raw byte `net_buf.data[2]` against `rig_is_on`
(an `int` holding 0 or 1) and, when they differ, writes 1 to the PWK GPIO
and records `pwk_on_time = current_time`; `PKT_TYPE_EOF` closes the client
socket, clears `connected` and `client_addr`, and sets `net_fd = -1`. -/
def serviceNet (i : LoopInput) (s : ServerState) : ServerState :=
  if s.connected then
    match i.netEv with
    | none => s
    | some r =>
      let sb : ServerState := { s with netBuf := applyTd s.netBuf r }
      match r.pkt with
      | PktType.pwk =>
        if r.data2 ≠ (if sb.rigOn then 1 else 0) then
          { sb with gpioPwk := true, pwkOnTime := i.now }
        else sb
      | PktType.eofPkt =>
        { sb with
          openClientFds := sb.openClientFds.erase sb.netFd
          netFd := -1
          connected := false
          clientAddr := 0 }
      | _ => sb
  else s

/-- Lines 291-331: if the listening socket is readable, `accept`.  On
`accept` failure `main` does `goto cleanup` (modelled `Except.error`, the
process exits with `EXIT_FAILURE`).  Otherwise: an empty slot adopts the new
socket and records the peer address; an occupied slot with the same recorded
address closes the old socket and installs the new one; a different address
is refused — the new socket is closed immediately. -/
def serviceAccept (i : LoopInput) (s : ServerState) : Except ServerState ServerState :=
  match i.acceptEv with
  | none => Except.ok s
  | some AcceptRes.err => Except.error s
  | some (AcceptRes.conn fd addr) =>
    let sa : ServerState := { s with openClientFds := fd :: s.openClientFds }
    if ¬ sa.connected then
      Except.ok { sa with netFd := fd, clientAddr := addr, connected := true }
    else if sa.clientAddr = addr then
      Except.ok { sa with
        openClientFds := sa.openClientFds.erase sa.netFd
        netFd := fd }
    else
      Except.ok { sa with openClientFds := sa.openClientFds.erase fd }

/-- One full iteration of the body of `while (keep_running)` (lines 220-333),
in source order: keepalive timer, PWK timer, UART service, network service,
accept handling.  `Except.error` is the `goto cleanup` on `accept`
failure. -/
def stepIter (i : LoopInput) (s : ServerState) : Except ServerState ServerState :=
  serviceAccept i (serviceNet i (serviceUart i (pwkPhase i (keepalivePhase i s))))

/-- State at entry of the event loop (lines 198-217): no client, rig assumed
off, timers zeroed, buffers zeroed, PWK line not asserted. -/
def initialState : ServerState :=
  { rigOn := false
    connected := false
    netFd := -1
    clientAddr := 0
    pwkOnTime := 0
    lastKeepalive := 0
    gpioPwk := false
    uartBuf := { validPkts := 0, invalidPkts := 0, writeErrors := 0 }
    netBuf := { validPkts := 0, invalidPkts := 0, writeErrors := 0 }
    kaSends := 0
    openClientFds := [] }

/-- Outcome of running the event loop on a finite schedule of iteration
environments. -/
inductive LoopResult where
  | ranOut (s : ServerState)
  | clean (s : ServerState)
  | fatal (s : ServerState)
deriving DecidableEq, Repr

/-- Run the `while (keep_running)` loop over a finite input schedule: a set
`sig` exits the loop cleanly at the loop-condition check (`exit_code`
becomes `EXIT_SUCCESS`); an `accept` failure exits fatally; an exhausted
schedule leaves the loop still running. -/
def runLoop : List LoopInput → ServerState → LoopResult
  | [], s => LoopResult.ranOut s
  | i :: rest, s =>
    if i.sig then LoopResult.clean s
    else
      match stepIter i s with
      | Except.error s' => LoopResult.fatal s'
      | Except.ok s' => runLoop rest s'

/-- Run a schedule of loop iterations, all of which complete normally
(`none` as soon as one hits the fatal `accept` path).  Used for trace
lemmas about states along an execution. -/
def runOk : List LoopInput → ServerState → Option ServerState
  | [], s => some s
  | i :: rest, s =>
    match stepIter i s with
    | Except.error _ => none
    | Except.ok s' => runOk rest s'

/-- Success of each fallible step of the setup sequence in `main` before the
event loop (lines 141-196): `open(uart)`, `set_serial_config`,
`gpio_init_out`, `socket`, `setsockopt(SO_REUSEADDR)`, `bind`, `listen`.
`sockoptOk = false` only produces a warning message (lines 177-179). -/
structure SetupEnv where
  uartOpenOk : Bool
  serialCfgOk : Bool
  gpioOk : Bool
  socketOk : Bool
  sockoptOk : Bool
  bindOk : Bool
  listenOk : Bool
deriving DecidableEq, Repr

/-- How the process ended: `exitedNoReport code` is a direct
`exit(code)` that never reaches the `cleanup` label (so the final counter
report of lines 346-351 is not printed); `exitedReported code` passes
through `cleanup` and prints the valid/invalid/write-error counters for both
directions before `exit(code)`; `stillRunning` means the finite schedule was
exhausted with the loop still live. -/
inductive ProgOutcome where
  | exitedNoReport (code : Nat)
  | exitedReported (code : Nat)
  | stillRunning (s : ServerState)
deriving DecidableEq, Repr

/-- Whole-program control flow of `main` after option parsing: the setup
if-chain (lines 141-196) followed by the event loop.  A failed `open` of the
UART device calls `exit(EXIT_FAILURE)` directly (line 147), before the
`cleanup` label exists to jump to; every later setup failure does
`goto cleanup` with `exit_code = EXIT_FAILURE`; a clean signal-triggered
loop exit sets `exit_code = EXIT_SUCCESS` and falls into `cleanup`; the
in-loop `accept` failure does `goto cleanup` with `exit_code` still
`EXIT_FAILURE`. -/
def runProgram (e : SetupEnv) (ins : List LoopInput) : ProgOutcome :=
  if ¬ e.uartOpenOk then ProgOutcome.exitedNoReport 1
  else if ¬ e.serialCfgOk then ProgOutcome.exitedReported 1
  else if ¬ e.gpioOk then ProgOutcome.exitedReported 1
  else if ¬ e.socketOk then ProgOutcome.exitedReported 1
  else if ¬ e.bindOk then ProgOutcome.exitedReported 1
  else if ¬ e.listenOk then ProgOutcome.exitedReported 1
  else
    match runLoop ins initialState with
    | LoopResult.clean _ => ProgOutcome.exitedReported 0
    | LoopResult.fatal _ => ProgOutcome.exitedReported 1
    | LoopResult.ranOut s => ProgOutcome.stillRunning s

/-- All fallible setup steps whose failure aborts the process succeeded
(`setsockopt` failure is excluded: it only warns). -/
def setupOk (e : SetupEnv) : Bool :=
  e.uartOpenOk && e.serialCfgOk && e.gpioOk && e.socketOk && e.bindOk && e.listenOk

/-- The outcome is a process exit with a nonzero exit code. -/
def isFailureExit : ProgOutcome → Bool
  | ProgOutcome.exitedNoReport code => code ≠ 0
  | ProgOutcome.exitedReported code => code ≠ 0
  | ProgOutcome.stillRunning _ => false

/-- Slot/socket bookkeeping invariant: the set of client sockets the process
holds open is exactly the occupied slot. -/
def ClientInv (s : ServerState) : Prop :=
  s.openClientFds = if s.connected then [s.netFd] else []

/-- States of the event loop reachable from `initialState` through completed
iterations. -/
inductive Reachable : ServerState → Prop where
  | init : Reachable initialState
  | step {s s' : ServerState} {i : LoopInput} :
      Reachable s → stepIter i s = Except.ok s' → Reachable s'

/-- An iteration whose network event is not a PWK packet. -/
def noPwkInput (i : LoopInput) : Prop :=
  ∀ r : TdRes, i.netEv = some r → r.pkt ≠ PktType.pwk

/-! ### Concrete fixtures used by witnesses and counterexamples -/

/-- An iteration environment with nothing ready and no signal. -/
def quietInput : LoopInput :=
  { sig := false, now := 0, kaFail := false, ka2Fail := false,
    uartEv := none, netEv := none, acceptEv := none }

/-- A state with one client (descriptor 4, address 7) in the slot. -/
def connectedState : ServerState :=
  { initialState with
    connected := true
    netFd := 4
    clientAddr := 7
    openClientFds := [4] }

/-- A state with the rig on and the keepalive timer at 0. -/
def rigOnState : ServerState := { initialState with rigOn := true }

/-- A connected state with a power pulse asserted at 100 ms. -/
def pendingState : ServerState :=
  { connectedState with
    pwkOnTime := 100
    gpioPwk := true }

/-- At 200 ms the client sends `PowerToggle` with payload byte 1. -/
def retrigInput : LoopInput :=
  { quietInput with
    now := 200
    netEv := some { pkt := PktType.pwk, dValid := 1, dInvalid := 0, dWErr := 0, data2 := 1 } }

/-- A clientless state with a power pulse asserted at 100 ms. -/
def pulseState : ServerState :=
  { initialState with
    pwkOnTime := 100
    gpioPwk := true }

/-- An otherwise idle iteration at 601 ms (501 ms past a pulse asserted at
100 ms). -/
def expiredInput : LoopInput := { quietInput with now := 601 }

/-- `pulseState` after its pulse has been deasserted and cleared. -/
def clearedState : ServerState :=
  { pulseState with
    pwkOnTime := 0
    gpioPwk := false }

/-- A setup in which every fallible step succeeds. -/
def envOk : SetupEnv :=
  { uartOpenOk := true, serialCfgOk := true, gpioOk := true, socketOk := true,
    sockoptOk := true, bindOk := true, listenOk := true }

/-- A setup in which only `open(uart)` fails. -/
def envNoUart : SetupEnv := { envOk with uartOpenOk := false }

/-- An iteration in which `accept` is reached and fails. -/
def acceptErrInput : LoopInput := { quietInput with acceptEv := some AcceptRes.err }

/-- At 50 ms the UART delivers an `Init2` packet. -/
def initUartInput : LoopInput :=
  { quietInput with
    now := 50
    uartEv := some { pkt := PktType.init2, dValid := 1, dInvalid := 0, dWErr := 0, data2 := 0 } }

/-- Same as `initUartInput` but the post-`Init2` keepalive write fails. -/
def ka2FailInput : LoopInput := { initUartInput with ka2Fail := true }

/-- A new connection, descriptor 9, from address 7. -/
def reconnectInput : LoopInput :=
  { quietInput with acceptEv := some (AcceptRes.conn 9 7) }

/-- An idle iteration at 200 ms whose periodic keepalive send fails. -/
def kaInput : LoopInput :=
  { quietInput with
    now := 200
    kaFail := true }

/-- `connectedState` with the rig on. -/
def onConnectedState : ServerState := { connectedState with rigOn := true }

/-- At 777 ms the client sends `PowerToggle` with payload byte 2 (a nonzero
byte, so a request for "on"). -/
def bytePwkInput : LoopInput :=
  { quietInput with
    now := 777
    netEv := some { pkt := PktType.pwk, dValid := 1, dInvalid := 0, dWErr := 0, data2 := 2 } }

/-- At 888 ms the client sends `PowerToggle` with payload byte 0 (a request
for "off"). -/
def offPwkInput : LoopInput :=
  { quietInput with
    now := 888
    netEv := some { pkt := PktType.pwk, dValid := 1, dInvalid := 0, dWErr := 0, data2 := 0 } }

/-! ### Arithmetic and frame lemmas -/

theorem sub64_self (a : Nat) : sub64 a a = 0 := by
  have hW : W64 = 18446744073709551616 := by norm_num [W64]
  unfold sub64
  rw [hW]
  omega

@[simp] theorem keepalivePhase_rigOn (i : LoopInput) (s : ServerState) :
    (keepalivePhase i s).rigOn = s.rigOn := by
  unfold keepalivePhase; split <;> rfl

@[simp] theorem keepalivePhase_connected (i : LoopInput) (s : ServerState) :
    (keepalivePhase i s).connected = s.connected := by
  unfold keepalivePhase; split <;> rfl

@[simp] theorem keepalivePhase_netFd (i : LoopInput) (s : ServerState) :
    (keepalivePhase i s).netFd = s.netFd := by
  unfold keepalivePhase; split <;> rfl

@[simp] theorem keepalivePhase_clientAddr (i : LoopInput) (s : ServerState) :
    (keepalivePhase i s).clientAddr = s.clientAddr := by
  unfold keepalivePhase; split <;> rfl

@[simp] theorem keepalivePhase_pwkOnTime (i : LoopInput) (s : ServerState) :
    (keepalivePhase i s).pwkOnTime = s.pwkOnTime := by
  unfold keepalivePhase; split <;> rfl

@[simp] theorem keepalivePhase_gpioPwk (i : LoopInput) (s : ServerState) :
    (keepalivePhase i s).gpioPwk = s.gpioPwk := by
  unfold keepalivePhase; split <;> rfl

@[simp] theorem keepalivePhase_uartBuf (i : LoopInput) (s : ServerState) :
    (keepalivePhase i s).uartBuf = s.uartBuf := by
  unfold keepalivePhase; split <;> rfl

@[simp] theorem keepalivePhase_netBuf (i : LoopInput) (s : ServerState) :
    (keepalivePhase i s).netBuf = s.netBuf := by
  unfold keepalivePhase; split <;> rfl

@[simp] theorem keepalivePhase_openClientFds (i : LoopInput) (s : ServerState) :
    (keepalivePhase i s).openClientFds = s.openClientFds := by
  unfold keepalivePhase; split <;> rfl

@[simp] theorem pwkPhase_rigOn (i : LoopInput) (s : ServerState) :
    (pwkPhase i s).rigOn = s.rigOn := by
  unfold pwkPhase; split <;> rfl

@[simp] theorem pwkPhase_connected (i : LoopInput) (s : ServerState) :
    (pwkPhase i s).connected = s.connected := by
  unfold pwkPhase; split <;> rfl

@[simp] theorem pwkPhase_netFd (i : LoopInput) (s : ServerState) :
    (pwkPhase i s).netFd = s.netFd := by
  unfold pwkPhase; split <;> rfl

@[simp] theorem pwkPhase_clientAddr (i : LoopInput) (s : ServerState) :
    (pwkPhase i s).clientAddr = s.clientAddr := by
  unfold pwkPhase; split <;> rfl

@[simp] theorem pwkPhase_lastKeepalive (i : LoopInput) (s : ServerState) :
    (pwkPhase i s).lastKeepalive = s.lastKeepalive := by
  unfold pwkPhase; split <;> rfl

@[simp] theorem pwkPhase_uartBuf (i : LoopInput) (s : ServerState) :
    (pwkPhase i s).uartBuf = s.uartBuf := by
  unfold pwkPhase; split <;> rfl

@[simp] theorem pwkPhase_netBuf (i : LoopInput) (s : ServerState) :
    (pwkPhase i s).netBuf = s.netBuf := by
  unfold pwkPhase; split <;> rfl

@[simp] theorem pwkPhase_kaSends (i : LoopInput) (s : ServerState) :
    (pwkPhase i s).kaSends = s.kaSends := by
  unfold pwkPhase; split <;> rfl

@[simp] theorem pwkPhase_openClientFds (i : LoopInput) (s : ServerState) :
    (pwkPhase i s).openClientFds = s.openClientFds := by
  unfold pwkPhase; split <;> rfl

@[simp] theorem serviceUart_connected (i : LoopInput) (s : ServerState) :
    (serviceUart i s).connected = s.connected := by
  unfold serviceUart
  cases i.uartEv with
  | none => rfl
  | some r => obtain ⟨pkt, dv, di, dw, d2⟩ := r; cases pkt <;> rfl

@[simp] theorem serviceUart_netFd (i : LoopInput) (s : ServerState) :
    (serviceUart i s).netFd = s.netFd := by
  unfold serviceUart
  cases i.uartEv with
  | none => rfl
  | some r => obtain ⟨pkt, dv, di, dw, d2⟩ := r; cases pkt <;> rfl

@[simp] theorem serviceUart_clientAddr (i : LoopInput) (s : ServerState) :
    (serviceUart i s).clientAddr = s.clientAddr := by
  unfold serviceUart
  cases i.uartEv with
  | none => rfl
  | some r => obtain ⟨pkt, dv, di, dw, d2⟩ := r; cases pkt <;> rfl

@[simp] theorem serviceUart_pwkOnTime (i : LoopInput) (s : ServerState) :
    (serviceUart i s).pwkOnTime = s.pwkOnTime := by
  unfold serviceUart
  cases i.uartEv with
  | none => rfl
  | some r => obtain ⟨pkt, dv, di, dw, d2⟩ := r; cases pkt <;> rfl

@[simp] theorem serviceUart_gpioPwk (i : LoopInput) (s : ServerState) :
    (serviceUart i s).gpioPwk = s.gpioPwk := by
  unfold serviceUart
  cases i.uartEv with
  | none => rfl
  | some r => obtain ⟨pkt, dv, di, dw, d2⟩ := r; cases pkt <;> rfl

@[simp] theorem serviceUart_netBuf (i : LoopInput) (s : ServerState) :
    (serviceUart i s).netBuf = s.netBuf := by
  unfold serviceUart
  cases i.uartEv with
  | none => rfl
  | some r => obtain ⟨pkt, dv, di, dw, d2⟩ := r; cases pkt <;> rfl

@[simp] theorem serviceUart_openClientFds (i : LoopInput) (s : ServerState) :
    (serviceUart i s).openClientFds = s.openClientFds := by
  unfold serviceUart
  cases i.uartEv with
  | none => rfl
  | some r => obtain ⟨pkt, dv, di, dw, d2⟩ := r; cases pkt <;> rfl

@[simp] theorem serviceNet_rigOn (i : LoopInput) (s : ServerState) :
    (serviceNet i s).rigOn = s.rigOn := by
  cases hev : i.netEv with
  | none => simp [serviceNet, hev]
  | some r =>
    obtain ⟨pkt, dv, di, dw, d2⟩ := r
    cases pkt <;> simp only [serviceNet, hev] <;> (repeat' split) <;> rfl

@[simp] theorem serviceNet_lastKeepalive (i : LoopInput) (s : ServerState) :
    (serviceNet i s).lastKeepalive = s.lastKeepalive := by
  cases hev : i.netEv with
  | none => simp [serviceNet, hev]
  | some r =>
    obtain ⟨pkt, dv, di, dw, d2⟩ := r
    cases pkt <;> simp only [serviceNet, hev] <;> (repeat' split) <;> rfl

@[simp] theorem serviceNet_uartBuf (i : LoopInput) (s : ServerState) :
    (serviceNet i s).uartBuf = s.uartBuf := by
  cases hev : i.netEv with
  | none => simp [serviceNet, hev]
  | some r =>
    obtain ⟨pkt, dv, di, dw, d2⟩ := r
    cases pkt <;> simp only [serviceNet, hev] <;> (repeat' split) <;> rfl

@[simp] theorem serviceNet_kaSends (i : LoopInput) (s : ServerState) :
    (serviceNet i s).kaSends = s.kaSends := by
  cases hev : i.netEv with
  | none => simp [serviceNet, hev]
  | some r =>
    obtain ⟨pkt, dv, di, dw, d2⟩ := r
    cases pkt <;> simp only [serviceNet, hev] <;> (repeat' split) <;> rfl

theorem serviceAccept_frame (i : LoopInput) (s s' : ServerState)
    (h : serviceAccept i s = Except.ok s') :
    s'.rigOn = s.rigOn ∧ s'.pwkOnTime = s.pwkOnTime ∧ s'.gpioPwk = s.gpioPwk ∧
    s'.lastKeepalive = s.lastKeepalive ∧ s'.uartBuf = s.uartBuf ∧
    s'.netBuf = s.netBuf ∧ s'.kaSends = s.kaSends := by
  unfold serviceAccept at h
  cases hev : i.acceptEv with
  | none =>
    rw [hev] at h
    cases h
    exact ⟨rfl, rfl, rfl, rfl, rfl, rfl, rfl⟩
  | some res =>
    cases res with
    | err => rw [hev] at h; cases h
    | conn fd addr =>
      rw [hev] at h
      simp only [] at h
      split at h
      · cases h; exact ⟨rfl, rfl, rfl, rfl, rfl, rfl, rfl⟩
      · split at h
        · cases h; exact ⟨rfl, rfl, rfl, rfl, rfl, rfl, rfl⟩
        · cases h; exact ⟨rfl, rfl, rfl, rfl, rfl, rfl, rfl⟩

/-! ### Characterization lemmas for the service phases -/

theorem serviceUart_rigOn (i : LoopInput) (s : ServerState) :
    (serviceUart i s).rigOn =
      (match i.uartEv with
       | some r =>
         (match r.pkt with
          | PktType.init2 => true
          | PktType.eos => false
          | _ => s.rigOn)
       | none => s.rigOn) := by
  cases hev : i.uartEv with
  | none => simp [serviceUart, hev]
  | some r =>
    obtain ⟨pkt, dv, di, dw, d2⟩ := r
    cases pkt <;> simp [serviceUart, hev]

theorem serviceUart_lastKeepalive (i : LoopInput) (s : ServerState) :
    (serviceUart i s).lastKeepalive =
      (match i.uartEv with
       | some r =>
         (match r.pkt with
          | PktType.init2 => i.now
          | _ => s.lastKeepalive)
       | none => s.lastKeepalive) := by
  cases hev : i.uartEv with
  | none => simp [serviceUart, hev]
  | some r =>
    obtain ⟨pkt, dv, di, dw, d2⟩ := r
    cases pkt <;> simp [serviceUart, hev]

/-- The network service phase either leaves `pwk_on_time` alone or (on a PWK
packet whose byte differs from the rig flag) stamps it with the current
time. -/
theorem serviceNet_pwkOnTime_cases (i : LoopInput) (s : ServerState) :
    (serviceNet i s).pwkOnTime = s.pwkOnTime ∨ (serviceNet i s).pwkOnTime = i.now := by
  cases hev : i.netEv with
  | none => simp [serviceNet, hev]
  | some r =>
    obtain ⟨pkt, dv, di, dw, d2⟩ := r
    cases pkt <;> simp only [serviceNet, hev] <;> (repeat' split) <;> simp

theorem serviceNet_noPwk (i : LoopInput) (s : ServerState) (h : noPwkInput i) :
    (serviceNet i s).pwkOnTime = s.pwkOnTime ∧ (serviceNet i s).gpioPwk = s.gpioPwk := by
  cases hev : i.netEv with
  | none => simp [serviceNet, hev]
  | some r =>
    obtain ⟨pkt, dv, di, dw, d2⟩ := r
    cases pkt
    case pwk => exact absurd rfl (h _ hev)
    all_goals
      simp only [serviceNet, hev]
      constructor <;> (repeat' split) <;> rfl

/-! ### Keepalive and pulse timer lemmas -/

/-- After the keepalive phase of an iteration at time `now`, a rig that was
on is at most 150 ms behind on its keepalive timer. -/
theorem keepalivePhase_bound (i : LoopInput) (s : ServerState) (h : s.rigOn = true) :
    sub64 i.now (keepalivePhase i s).lastKeepalive ≤ 150 := by
  unfold keepalivePhase
  split
  · show sub64 i.now i.now ≤ 150
    rw [sub64_self]
    omega
  · next hcond =>
    rw [h] at hcond
    simp only [true_and] at hcond
    omega

/-- The PWK timer phase either leaves the pulse fields alone or clears
them. -/
theorem pwkPhase_cases (i : LoopInput) (s : ServerState) :
    ((pwkPhase i s).pwkOnTime = s.pwkOnTime ∧ (pwkPhase i s).gpioPwk = s.gpioPwk) ∨
    ((pwkPhase i s).pwkOnTime = 0 ∧ (pwkPhase i s).gpioPwk = false) := by
  unfold pwkPhase
  split
  · right; exact ⟨rfl, rfl⟩
  · left; exact ⟨rfl, rfl⟩

/-- A pending pulse older than 500 ms is unconditionally deasserted and
cleared by the PWK timer phase, whatever the rest of the state holds. -/
theorem pwkPhase_expired (i : LoopInput) (s : ServerState)
    (hp : s.pwkOnTime ≠ 0) (he : sub64 i.now s.pwkOnTime > 500) :
    (pwkPhase i s).gpioPwk = false ∧ (pwkPhase i s).pwkOnTime = 0 := by
  unfold pwkPhase
  rw [if_pos ⟨hp, he⟩]
  exact ⟨rfl, rfl⟩

/-- After the PWK timer phase the recorded assertion time is cleared or at
most 500 ms old. -/
theorem pwkPhase_bound (i : LoopInput) (s : ServerState) :
    (pwkPhase i s).pwkOnTime = 0 ∨ sub64 i.now (pwkPhase i s).pwkOnTime ≤ 500 := by
  unfold pwkPhase
  split
  · left; rfl
  · next hcond =>
    by_cases h0 : s.pwkOnTime = 0
    · left; exact h0
    · right
      have : ¬ sub64 i.now s.pwkOnTime > 500 := fun hgt => hcond ⟨h0, hgt⟩
      omega

/-! ### Step-level pulse lemmas -/

/-- A pulse whose recorded time is expired at the top of an iteration never
survives the iteration with its old timestamp: it is cleared, and can only
reappear re-stamped with the current time (a retrigger by a fresh PWK
packet). -/
theorem stepIter_pwk_noSurvive (i : LoopInput) (s s' : ServerState)
    (hok : stepIter i s = Except.ok s')
    (hexp : sub64 i.now s.pwkOnTime > 500) :
    s'.pwkOnTime = 0 ∨ s'.pwkOnTime = i.now := by
  unfold stepIter at hok
  have hfr := serviceAccept_frame i _ s' hok
  rcases serviceNet_pwkOnTime_cases i (serviceUart i (pwkPhase i (keepalivePhase i s))) with hc | hc
  · left
    rw [hfr.2.1, hc, serviceUart_pwkOnTime]
    by_cases h0 : s.pwkOnTime = 0
    · unfold pwkPhase
      split
      · rfl
      · simp [h0]
    · have := pwkPhase_expired i (keepalivePhase i s)
        (by simpa using h0) (by simpa using hexp)
      exact this.2
  · right
    rw [hfr.2.1, hc]

/-- In an iteration without a PWK packet from the client, the pulse fields
evolve only through the PWK timer phase: they are preserved or cleared. -/
theorem stepIter_noPwk_fields (i : LoopInput) (s s' : ServerState)
    (hok : stepIter i s = Except.ok s') (hnp : noPwkInput i) :
    (s'.pwkOnTime = s.pwkOnTime ∧ s'.gpioPwk = s.gpioPwk) ∨
    (s'.pwkOnTime = 0 ∧ s'.gpioPwk = false) := by
  unfold stepIter at hok
  have hfr := serviceAccept_frame i _ s' hok
  have hnet := serviceNet_noPwk i (serviceUart i (pwkPhase i (keepalivePhase i s))) hnp
  rcases pwkPhase_cases i (keepalivePhase i s) with ⟨hp, hg⟩ | ⟨hp, hg⟩
  · left
    constructor
    · rw [hfr.2.1, hnet.1, serviceUart_pwkOnTime, hp, keepalivePhase_pwkOnTime]
    · rw [hfr.2.2.1, hnet.2, serviceUart_gpioPwk, hg, keepalivePhase_gpioPwk]
  · right
    constructor
    · rw [hfr.2.1, hnet.1, serviceUart_pwkOnTime, hp]
    · rw [hfr.2.2.1, hnet.2, serviceUart_gpioPwk, hg]

/-- In an iteration without a PWK packet, a pending pulse that is expired at
the sampled time is deasserted and cleared by the end of the iteration. -/
theorem stepIter_fire (i : LoopInput) (s s' : ServerState)
    (hok : stepIter i s = Except.ok s') (hnp : noPwkInput i)
    (hp : s.pwkOnTime ≠ 0) (hexp : sub64 i.now s.pwkOnTime > 500) :
    s'.pwkOnTime = 0 ∧ s'.gpioPwk = false := by
  unfold stepIter at hok
  have hfr := serviceAccept_frame i _ s' hok
  have hnet := serviceNet_noPwk i (serviceUart i (pwkPhase i (keepalivePhase i s))) hnp
  have hfire := pwkPhase_expired i (keepalivePhase i s)
    (by simpa using hp) (by simpa using hexp)
  constructor
  · rw [hfr.2.1, hnet.1, serviceUart_pwkOnTime, hfire.2]
  · rw [hfr.2.2.1, hnet.2, serviceUart_gpioPwk, hfire.1]

theorem runOk_append (a b : List LoopInput) (s : ServerState) :
    runOk (a ++ b) s = (runOk a s).bind (runOk b) := by
  induction a generalizing s with
  | nil => rfl
  | cons i rest ih =>
    simp only [List.cons_append, runOk]
    cases stepIter i s with
    | error s1 => rfl
    | ok s1 => exact ih s1

/-- Along any run without PWK packets, the pulse fields are either carried
through untouched or end up cleared. -/
theorem runOk_noPwk_invariant (ins : List LoopInput) (s s' : ServerState)
    (h : runOk ins s = some s') (hnp : ∀ i ∈ ins, noPwkInput i) :
    (s'.pwkOnTime = s.pwkOnTime ∧ s'.gpioPwk = s.gpioPwk) ∨
    (s'.pwkOnTime = 0 ∧ s'.gpioPwk = false) := by
  induction ins generalizing s with
  | nil =>
    simp only [runOk, Option.some.injEq] at h
    subst h
    left; exact ⟨rfl, rfl⟩
  | cons i rest ih =>
    simp only [runOk] at h
    cases hstep : stepIter i s with
    | error s1 => rw [hstep] at h; cases h
    | ok s1 =>
      rw [hstep] at h
      have h1 := stepIter_noPwk_fields i s s1 hstep (hnp i (by simp))
      have h2 := ih s1 h (fun j hj => hnp j (by simp [hj]))
      rcases h1 with ⟨hp1, hg1⟩ | ⟨hp1, hg1⟩ <;> rcases h2 with ⟨hp2, hg2⟩ | ⟨hp2, hg2⟩
      · left; exact ⟨hp2.trans hp1, hg2.trans hg1⟩
      · right; exact ⟨hp2, hg2⟩
      · right; exact ⟨hp2.trans hp1, hg2.trans hg1⟩
      · right; exact ⟨hp2, hg2⟩

/-- Any pending pulse is gone — output deasserted, pending flag cleared — by
the end of a run whose iterations carry no further PWK request and whose
last iteration samples a time more than 500 ms past the recorded assertion
time. -/
theorem runOk_pulse_cleared (ins : List LoopInput) (j : LoopInput)
    (s s' : ServerState) (h : runOk (ins ++ [j]) s = some s')
    (hnp : ∀ i ∈ ins ++ [j], noPwkInput i)
    (hp : s.pwkOnTime ≠ 0) (hexp : sub64 j.now s.pwkOnTime > 500) :
    s'.pwkOnTime = 0 ∧ s'.gpioPwk = false := by
  rw [runOk_append] at h
  cases ht : runOk ins s with
  | none => rw [ht] at h; cases h
  | some t =>
    rw [ht] at h
    have hj : runOk [j] t = some s' := h
    simp only [runOk] at hj
    cases hstep : stepIter j t with
    | error t1 => rw [hstep] at hj; cases hj
    | ok t1 =>
      rw [hstep] at hj
      simp only [Option.some.injEq] at hj
      subst hj
      have hnpj : noPwkInput j := hnp j (by simp)
      have hinv := runOk_noPwk_invariant ins s t ht (fun i hi => hnp i (by simp [hi]))
      rcases hinv with ⟨hpt, hgt⟩ | ⟨hpt, hgt⟩
      · exact stepIter_fire j t t1 hstep hnpj (by rw [hpt]; exact hp) (by rw [hpt]; exact hexp)
      · rcases stepIter_noPwk_fields j t t1 hstep hnpj with ⟨hp1, hg1⟩ | h1
        · exact ⟨hp1.trans hpt, hg1.trans hgt⟩
        · exact h1

/-! ### Client-slot invariant -/

theorem serviceNet_clientInv (i : LoopInput) (s : ServerState)
    (h : ClientInv s) : ClientInv (serviceNet i s) := by
  unfold ClientInv at h ⊢
  cases hev : i.netEv with
  | none => simpa [serviceNet, hev] using h
  | some r =>
    obtain ⟨pkt, dv, di, dw, d2⟩ := r
    by_cases hc : s.connected = true
    · simp only [hc, if_true] at h
      cases pkt <;> simp only [serviceNet, hev, hc, if_true] <;>
        (repeat' split) <;> simp_all
    · have hc' : s.connected = false := by revert hc; cases s.connected <;> simp
      simp only [hc', Bool.false_eq_true, if_false] at h
      cases pkt <;> simp [serviceNet, hev, hc', h]

theorem serviceAccept_clientInv (i : LoopInput) (s s' : ServerState)
    (h : ClientInv s) (hok : serviceAccept i s = Except.ok s') : ClientInv s' := by
  unfold ClientInv at h ⊢
  unfold serviceAccept at hok
  cases hev : i.acceptEv with
  | none =>
    rw [hev] at hok
    cases hok
    exact h
  | some res =>
    cases res with
    | err => rw [hev] at hok; cases hok
    | conn fd addr =>
      rw [hev] at hok
      simp only [] at hok
      split at hok
      · next hnc =>
        cases hok
        have hc : s.connected = false := by
          revert hnc; cases s.connected <;> simp
        simp only [hc, Bool.false_eq_true, if_false] at h
        simp [h, hc]
      · next hcc =>
        have hc : s.connected = true := by
          revert hcc; cases s.connected <;> simp
        simp only [hc, if_true] at h
        split at hok
        · cases hok
          simp only [hc, if_true]
          rw [h, List.erase_cons]
          by_cases hfd : fd = s.netFd <;> simp [hfd]
        · cases hok
          simp [hc, h, List.erase_cons]

theorem stepIter_clientInv (i : LoopInput) (s s' : ServerState)
    (h : ClientInv s) (hok : stepIter i s = Except.ok s') : ClientInv s' := by
  unfold stepIter at hok
  refine serviceAccept_clientInv i _ s' ?_ hok
  refine serviceNet_clientInv i _ ?_
  unfold ClientInv
  simp only [serviceUart_openClientFds, serviceUart_connected, serviceUart_netFd,
    pwkPhase_openClientFds, pwkPhase_connected, pwkPhase_netFd,
    keepalivePhase_openClientFds, keepalivePhase_connected, keepalivePhase_netFd]
  exact h

theorem reachable_clientInv (s : ServerState) (h : Reachable s) : ClientInv s := by
  induction h with
  | init => rfl
  | step hr hok ih => exact stepIter_clientInv _ _ _ ih hok

/-! ### Fatal-exit and reporting lemmas -/

/-- The only way an iteration of the loop body aborts (reaches
`goto cleanup` with `exit_code` still `EXIT_FAILURE`) is a failed
`accept`. -/
theorem stepIter_error_iff (i : LoopInput) (s : ServerState) :
    (∃ s', stepIter i s = Except.error s') ↔ i.acceptEv = some AcceptRes.err := by
  constructor
  · rintro ⟨s', h⟩
    unfold stepIter serviceAccept at h
    cases hev : i.acceptEv with
    | none => rw [hev] at h; cases h
    | some res =>
      cases res with
      | err => rfl
      | conn fd addr =>
        rw [hev] at h
        simp only [] at h
        split at h
        · cases h
        · split at h <;> cases h
  · intro hev
    refine ⟨serviceNet i (serviceUart i (pwkPhase i (keepalivePhase i s))), ?_⟩
    unfold stepIter serviceAccept
    rw [hev]

theorem runLoop_fatal_acceptErr (ins : List LoopInput) (s s' : ServerState)
    (h : runLoop ins s = LoopResult.fatal s') :
    ∃ i ∈ ins, i.acceptEv = some AcceptRes.err := by
  induction ins generalizing s with
  | nil => cases h
  | cons i rest ih =>
    simp only [runLoop] at h
    split at h
    · cases h
    · cases hstep : stepIter i s with
      | error s1 =>
        exact ⟨i, by simp, (stepIter_error_iff i s).mp ⟨s1, hstep⟩⟩
      | ok s1 =>
        rw [hstep] at h
        obtain ⟨j, hj, hje⟩ := ih s1 h
        exact ⟨j, by simp [hj], hje⟩

theorem runProgram_failure_source (e : SetupEnv) (ins : List LoopInput)
    (h : isFailureExit (runProgram e ins) = true) :
    setupOk e = false ∨ ∃ i ∈ ins, i.acceptEv = some AcceptRes.err := by
  by_cases hs : setupOk e = true
  · right
    unfold setupOk at hs
    simp only [Bool.and_eq_true] at hs
    obtain ⟨⟨⟨⟨⟨h1, h2⟩, h3⟩, h4⟩, h5⟩, h6⟩ := hs
    unfold runProgram at h
    simp only [h1, h2, h3, h4, h5, h6, not_true, if_false] at h
    cases hr : runLoop ins initialState with
    | clean s => rw [hr] at h; simp [isFailureExit] at h
    | fatal s => exact runLoop_fatal_acceptErr ins initialState s hr
    | ranOut s => rw [hr] at h; simp [isFailureExit] at h
  · left
    revert hs
    cases setupOk e <;> simp

/-! ### Keepalive bound lemmas -/

theorem serviceUart_keepalive_bound (i : LoopInput) (s : ServerState)
    (hpre : s.rigOn = true → sub64 i.now s.lastKeepalive ≤ 150)
    (hrig : (serviceUart i s).rigOn = true) :
    sub64 i.now (serviceUart i s).lastKeepalive ≤ 150 := by
  cases hev : i.uartEv with
  | none =>
    simp only [serviceUart, hev] at hrig ⊢
    exact hpre hrig
  | some r =>
    obtain ⟨pkt, dv, di, dw, d2⟩ := r
    cases pkt <;> simp only [serviceUart, hev] at hrig ⊢
    case init2 => rw [sub64_self]; omega
    case eos => exact absurd hrig (by simp)
    all_goals exact hpre hrig

/-- After any completed iteration, a rig that ends up on is at most 150 ms
behind on its keepalive timer (measured at the iteration's sampled time). -/
theorem stepIter_keepalive_bound (i : LoopInput) (s s' : ServerState)
    (hok : stepIter i s = Except.ok s') (hrig : s'.rigOn = true) :
    sub64 i.now s'.lastKeepalive ≤ 150 := by
  unfold stepIter at hok
  have hfr := serviceAccept_frame i _ s' hok
  rw [hfr.2.2.2.1, serviceNet_lastKeepalive]
  have hrig4 : (serviceUart i (pwkPhase i (keepalivePhase i s))).rigOn = true := by
    rw [← serviceNet_rigOn i, ← hfr.1]
    exact hrig
  refine serviceUart_keepalive_bound i _ ?_ hrig4
  intro hr
  rw [pwkPhase_lastKeepalive]
  refine keepalivePhase_bound i s ?_
  simpa using hr

/-! ### Claims -/

/-- C1 counterexample: at 200 ms, with a pulse still pending (asserted at
100 ms, not yet deasserted), a `PowerToggle` whose byte differs from the rig
flag is NOT ignored: the iteration overwrites the recorded assertion time
`pwk_on_time` with 200. -/
theorem c1_pending_retrigger_counterexample :
    pendingState.pwkOnTime = 100 ∧ pendingState.gpioPwk = true ∧
    stepIter retrigInput pendingState =
      Except.ok { pendingState with
        netBuf := { validPkts := 1, invalidPkts := 0, writeErrors := 0 }
        pwkOnTime := 200 } := by
  refine ⟨rfl, rfl, ?_⟩
  rfl

/-- C1 (amended): a `PowerToggle` from the network whose payload byte
differs from the rig flag re-asserts the GPIO and overwrites the recorded
assertion time with the current time even while a pulse is already pending
(a retrigger that extends the pulse); the code has no pending-pulse
guard. -/
theorem c1_pwk_retrigger_while_pending (i : LoopInput) (s : ServerState)
    (r : TdRes) (_hpend : s.pwkOnTime ≠ 0) (hc : s.connected = true)
    (hev : i.netEv = some r) (hp : r.pkt = PktType.pwk)
    (hd : r.data2 ≠ (if s.rigOn then 1 else 0)) :
    (serviceNet i s).pwkOnTime = i.now ∧ (serviceNet i s).gpioPwk = true := by
  simp [serviceNet, hev, hc, hp, hd]

/-- C1 witness: the retrigger theorem applied at the concrete pending
state. -/
theorem c1_pwk_retrigger_witness :
    (serviceNet retrigInput pendingState).pwkOnTime = 200 ∧
    (serviceNet retrigInput pendingState).gpioPwk = true :=
  c1_pwk_retrigger_while_pending retrigInput pendingState
    { pkt := PktType.pwk, dValid := 1, dInvalid := 0, dWErr := 0, data2 := 1 }
    (by decide) rfl rfl rfl (by decide)

/-- C2 counterexample: with every setup step succeeding, a failed `accept`
inside the running event loop still aborts the process with a failure exit
code (`goto cleanup` with `exit_code` = `EXIT_FAILURE`), so not every
in-loop I/O failure is non-fatal. -/
theorem c2_accept_failure_fatal_counterexample :
    setupOk envOk = true ∧
    runProgram envOk [acceptErrInput] = ProgOutcome.exitedReported 1 := by
  refine ⟨rfl, ?_⟩
  rfl

/-- C2 (amended): a failure exit can arise only from a failed setup step or
from a failed in-loop `accept`; conversely a loop iteration aborts exactly
when its `accept` fails, so read/write failures on the UART or client
socket never abort the loop. -/
theorem c2_failure_exit_characterization :
    (∀ (i : LoopInput) (s : ServerState),
      (∃ s', stepIter i s = Except.error s') ↔ i.acceptEv = some AcceptRes.err) ∧
    (∀ (e : SetupEnv) (ins : List LoopInput),
      isFailureExit (runProgram e ins) = true →
      setupOk e = false ∨ ∃ i ∈ ins, i.acceptEv = some AcceptRes.err) :=
  ⟨stepIter_error_iff, runProgram_failure_source⟩

/-- C2 witness: the characterization applied at a concrete failing accept
and at a concrete run. -/
theorem c2_failure_exit_witness :
    (∃ s', stepIter acceptErrInput initialState = Except.error s') ∧
    (setupOk envOk = false ∨
      ∃ i ∈ [acceptErrInput], i.acceptEv = some AcceptRes.err) :=
  ⟨(c2_failure_exit_characterization.1 acceptErrInput initialState).mpr rfl,
   c2_failure_exit_characterization.2 envOk [acceptErrInput] (by decide)⟩

/-- C3 counterexample: with the rig on and the keepalive due, an iteration
whose periodic `send_keepalive` FAILS still advances `last_keepalive` to the
current time — the code discards the send's return value — so the timer is
not advanced only on successful sends. -/
theorem c3_timer_advance_on_failed_send_counterexample :
    kaInput.kaFail = true ∧
    stepIter kaInput rigOnState =
      Except.ok { rigOnState with lastKeepalive := 200, kaSends := 1 } := by
  refine ⟨rfl, ?_⟩
  rfl

/-- C3 (amended): while the rig is on, the top-of-loop check sends a
keepalive whenever more than 150 ms have passed since `last_keepalive`, and
advances the timer on every such attempt regardless of the send's outcome
(the interval is measured from the last attempt, not the last success); the
periodic path sends nothing while the rig is off; and after any completed
iteration a rig that is on is at most 150 ms behind at the iteration's
sampled time. -/
theorem c3_keepalive_policy :
    (∀ (i : LoopInput) (s : ServerState), s.rigOn = true →
      sub64 i.now s.lastKeepalive > 150 →
      keepalivePhase i s =
        { s with kaSends := s.kaSends + 1, lastKeepalive := i.now }) ∧
    (∀ (i : LoopInput) (s : ServerState), s.rigOn = false →
      keepalivePhase i s = s) ∧
    (∀ (i : LoopInput) (s s' : ServerState), stepIter i s = Except.ok s' →
      s'.rigOn = true → sub64 i.now s'.lastKeepalive ≤ 150) := by
  refine ⟨?_, ?_, stepIter_keepalive_bound⟩
  · intro i s h1 h2
    unfold keepalivePhase
    rw [if_pos ⟨h1, h2⟩]
  · intro i s h
    unfold keepalivePhase
    rw [if_neg]
    simp [h]

/-- C3 witness: the keepalive policy applied at concrete states. -/
theorem c3_keepalive_policy_witness :
    keepalivePhase kaInput rigOnState =
      { rigOnState with kaSends := 1, lastKeepalive := 200 } ∧
    keepalivePhase kaInput initialState = initialState ∧
    sub64 kaInput.now
      ({ rigOnState with lastKeepalive := 200, kaSends := 1 } : ServerState).lastKeepalive ≤ 150 :=
  ⟨c3_keepalive_policy.1 kaInput rigOnState rfl (by decide),
   c3_keepalive_policy.2.1 kaInput initialState rfl,
   c3_keepalive_policy.2.2 kaInput rigOnState
     { rigOnState with lastKeepalive := 200, kaSends := 1 } (by rfl) rfl⟩

/-- C4 counterexample: a failed `open` of the serial device — a fatal setup
failure — calls `exit(EXIT_FAILURE)` directly (line 147), never reaching the
`cleanup` label, so the counters are NOT reported on that shutdown path. -/
theorem c4_uart_open_failure_no_report_counterexample :
    runProgram envNoUart [] = ProgOutcome.exitedNoReport 1 := by
  rfl

/-- C4 (amended): the cumulative counters are reported on every shutdown
path except a failed `open` of the serial device: a run exits without the
counter report exactly when the serial open fails (and then with exit code
1); every other exit — signal-triggered, later setup failures, in-loop
accept failure — passes through `cleanup` and reports. -/
theorem c4_report_on_all_paths_except_uart_open (e : SetupEnv)
    (ins : List LoopInput) (code : Nat) :
    runProgram e ins = ProgOutcome.exitedNoReport code ↔
      (e.uartOpenOk = false ∧ code = 1) := by
  constructor
  · intro h
    unfold runProgram at h
    by_cases h1 : e.uartOpenOk = true
    · exfalso
      simp only [h1] at h
      (repeat' split at h) <;> simp_all
    · have h0 : e.uartOpenOk = false := by
        revert h1; cases e.uartOpenOk <;> simp
      simp only [h0] at h
      simp at h
      exact ⟨h0, h.symm⟩
  · rintro ⟨h0, hc⟩
    subst hc
    unfold runProgram
    simp [h0]

/-- C5 counterexample: with the rig on, a `PowerToggle` whose payload byte
is 2 — nonzero, hence the boolean "on", agreeing with the current state —
still asserts a pulse, because the code compares the raw byte against the
0/1 rig flag (`net_buf.data[2] != rig_is_on`) rather than its boolean
value. -/
theorem c5_byte_vs_bool_counterexample :
    onConnectedState.rigOn = true ∧
    (∀ r : TdRes, bytePwkInput.netEv = some r → r.data2 = 2 ∧ r.data2 ≠ 0) ∧
    onConnectedState.pwkOnTime = 0 ∧
    stepIter bytePwkInput onConnectedState =
      Except.ok { onConnectedState with
        netBuf := { validPkts := 1, invalidPkts := 0, writeErrors := 0 }
        pwkOnTime := 777
        lastKeepalive := 777
        kaSends := 1
        gpioPwk := true } := by
  refine ⟨rfl, ?_, rfl, ?_⟩
  · intro r hr
    cases hr
    exact ⟨rfl, by decide⟩
  · rfl

/-- C5 (amended): on a `PowerToggle` from the connected client, a pulse is
asserted exactly when the raw payload byte differs numerically from the 0/1
rig flag; for payload bytes 0 and 1 this coincides with comparing the
boolean requested state to `rig_is_on`, but a nonzero byte other than 1
asserts a pulse even when the rig is already on. -/
theorem c5_pulse_iff_byte_differs (i : LoopInput) (s : ServerState)
    (r : TdRes) (hc : s.connected = true) (hev : i.netEv = some r)
    (hp : r.pkt = PktType.pwk) :
    serviceNet i s =
      (if r.data2 = (if s.rigOn then 1 else 0)
       then { s with netBuf := applyTd s.netBuf r }
       else { s with
              netBuf := applyTd s.netBuf r
              gpioPwk := true
              pwkOnTime := i.now }) := by
  by_cases hd : r.data2 = (if s.rigOn then 1 else 0)
  · simp [serviceNet, hev, hc, hp, hd]
  · simp [serviceNet, hev, hc, hp, hd]

/-- C5 witness: byte 0 with the rig on (requested "off" differs from the
current state) asserts a pulse. -/
theorem c5_pulse_witness :
    serviceNet offPwkInput onConnectedState =
      (if (0 : Nat) = (if onConnectedState.rigOn then 1 else 0)
       then { onConnectedState with
              netBuf := applyTd onConnectedState.netBuf
                { pkt := PktType.pwk, dValid := 1, dInvalid := 0, dWErr := 0, data2 := 0 } }
       else { onConnectedState with
              netBuf := applyTd onConnectedState.netBuf
                { pkt := PktType.pwk, dValid := 1, dInvalid := 0, dWErr := 0, data2 := 0 }
              gpioPwk := true
              pwkOnTime := offPwkInput.now }) :=
  c5_pulse_iff_byte_differs offPwkInput onConnectedState
    { pkt := PktType.pwk, dValid := 1, dInvalid := 0, dWErr := 0, data2 := 0 }
    rfl rfl rfl

/-- C6: across any completed loop iteration, the rig state ends on exactly
when an `Init2` packet was observed on the UART channel, ends off exactly
when an `EndOfSession` packet was, and is otherwise unchanged — in
particular no network-channel packet (PWK, EOF or other) and no accept
event ever changes it. -/
theorem c6_rig_transitions (i : LoopInput) (s s' : ServerState)
    (hok : stepIter i s = Except.ok s') :
    s'.rigOn =
      (match i.uartEv with
       | some r =>
         (match r.pkt with
          | PktType.init2 => true
          | PktType.eos => false
          | _ => s.rigOn)
       | none => s.rigOn) := by
  unfold stepIter at hok
  have hfr := serviceAccept_frame i _ s' hok
  rw [hfr.1, serviceNet_rigOn, serviceUart_rigOn, pwkPhase_rigOn,
    keepalivePhase_rigOn]

/-- C6 witness: an `Init2` packet on the UART turns the rig on. -/
theorem c6_rig_transitions_witness :
    ({ initialState with
        rigOn := true
        uartBuf := { validPkts := 1, invalidPkts := 0, writeErrors := 0 }
        kaSends := 1
        lastKeepalive := 50 } : ServerState).rigOn =
      (match initUartInput.uartEv with
       | some r =>
         (match r.pkt with
          | PktType.init2 => true
          | PktType.eos => false
          | _ => initialState.rigOn)
       | none => initialState.rigOn) :=
  c6_rig_transitions initUartInput initialState _ (by rfl)

/-- C7: when a connection is accepted while the slot is occupied (under the
slot invariant), a matching peer address replaces only the slot's socket —
the old one is closed, the new one installed, and the recorded address, rig
state, pulse state and everything else are untouched — while a different
peer address leaves the state entirely unchanged (the newcomer is closed
immediately). -/
theorem c7_accept_occupied_same_or_refuse (i : LoopInput) (s : ServerState)
    (fd : Int) (addr : Nat) (hc : s.connected = true) (hinv : ClientInv s)
    (hev : i.acceptEv = some (AcceptRes.conn fd addr)) :
    serviceAccept i s =
      Except.ok (if s.clientAddr = addr
        then { s with netFd := fd, openClientFds := [fd] }
        else s) := by
  unfold ClientInv at hinv
  simp only [hc, if_true] at hinv
  by_cases had : s.clientAddr = addr
  · rw [if_pos had]
    simp only [serviceAccept, hev, hc, had, hinv]
    rw [List.erase_cons]
    by_cases hfd : fd = s.netFd <;> simp [hfd]
  · rw [if_neg had]
    simp only [serviceAccept, hev, hc, had]
    simp only [hinv, List.erase_cons_head]
    rw [← hc, ← hinv]
    simp

/-- C7 witness: the accept contract applied at the concrete occupied slot
(descriptor 4, address 7) with a reconnect from address 7 on descriptor
9. -/
theorem c7_accept_occupied_witness :
    serviceAccept reconnectInput connectedState =
      Except.ok (if connectedState.clientAddr = 7
        then { connectedState with netFd := 9, openClientFds := [9] }
        else connectedState) :=
  c7_accept_occupied_same_or_refuse reconnectInput connectedState 9 7 rfl rfl rfl

/-- C8: (a) the PWK timer phase unconditionally deasserts the output and
clears the pending flag for any pending pulse more than 500 ms old,
whatever the rest of the state; (b) across any completed iteration an
expired recorded assertion time never survives — afterwards the pulse is
cleared or re-stamped with the iteration's current time by a fresh request;
(c) along any run without further PWK requests whose last iteration samples
a time more than 500 ms past the recorded assertion time, the pulse ends
deasserted and cleared — with iteration gaps bounded by the ≤ 50 ms
readiness-wait timeout this is within 500 ms plus that bound. -/
theorem c8_pulse_deassert :
    (∀ (i : LoopInput) (s : ServerState), s.pwkOnTime ≠ 0 →
      sub64 i.now s.pwkOnTime > 500 →
      (pwkPhase i s).gpioPwk = false ∧ (pwkPhase i s).pwkOnTime = 0) ∧
    (∀ (i : LoopInput) (s s' : ServerState), stepIter i s = Except.ok s' →
      sub64 i.now s.pwkOnTime > 500 →
      s'.pwkOnTime = 0 ∨ s'.pwkOnTime = i.now) ∧
    (∀ (ins : List LoopInput) (j : LoopInput) (s s' : ServerState),
      runOk (ins ++ [j]) s = some s' →
      (∀ i ∈ ins ++ [j], noPwkInput i) →
      s.pwkOnTime ≠ 0 → sub64 j.now s.pwkOnTime > 500 →
      s'.pwkOnTime = 0 ∧ s'.gpioPwk = false) :=
  ⟨pwkPhase_expired, stepIter_pwk_noSurvive, runOk_pulse_cleared⟩

/-- C8 witness: the deassertion theorem applied to a pulse asserted at
100 ms observed at 601 ms. -/
theorem c8_pulse_deassert_witness :
    ((pwkPhase expiredInput pulseState).gpioPwk = false ∧
      (pwkPhase expiredInput pulseState).pwkOnTime = 0) ∧
    (clearedState.pwkOnTime = 0 ∨ clearedState.pwkOnTime = expiredInput.now) ∧
    (clearedState.pwkOnTime = 0 ∧ clearedState.gpioPwk = false) :=
  ⟨c8_pulse_deassert.1 expiredInput pulseState (by decide) (by decide),
   c8_pulse_deassert.2.1 expiredInput pulseState clearedState (by rfl) (by decide),
   c8_pulse_deassert.2.2 [] expiredInput pulseState clearedState (by rfl)
     (by
       intro i hi r hr
       rw [List.nil_append, List.mem_singleton] at hi
       subst hi
       exact Option.noConfusion hr)
     (by decide) (by decide)⟩

/-- C9: in every state of the event loop reachable from the initial state
through completed iterations, the process holds at most one client socket
open: the accept handler fills an empty slot, replaces the same-origin
socket after closing the old one, or closes the newcomer at once, and the
end-of-stream handler empties the slot. -/
theorem c9_at_most_one_client (s : ServerState) (h : Reachable s) :
    s.openClientFds.length ≤ 1 := by
  have hinv := reachable_clientInv s h
  unfold ClientInv at hinv
  rw [hinv]
  split <;> simp

/-- C9 witness: the slot bound at the initial (reachable) state. -/
theorem c9_at_most_one_client_witness :
    initialState.openClientFds.length ≤ 1 :=
  c9_at_most_one_client initialState Reachable.init

/-- C10: the two keepalive emission paths account for send failures
differently — the whole loop iteration is bit-for-bit insensitive to the
outcome of the periodic top-of-loop `send_keepalive` (its return value is
discarded), while the keepalive sent on receiving `Init2` adds its error
count to the UART channel's `write_errors`. -/
theorem c10_keepalive_error_accounting :
    (∀ (i : LoopInput) (s : ServerState) (b : Bool),
      stepIter { i with kaFail := b } s = stepIter i s) ∧
    (∀ (i : LoopInput) (s : ServerState) (r : TdRes),
      i.uartEv = some r → r.pkt = PktType.init2 →
      (serviceUart i s).uartBuf.writeErrors =
        s.uartBuf.writeErrors + r.dWErr + (if i.ka2Fail then 1 else 0)) := by
  constructor
  · intro i s b
    cases i
    rfl
  · intro i s r hev hp
    simp [serviceUart, hev, hp, applyTd]

/-- C10 witness: the accounting facts at a concrete failed periodic send
and a concrete failed post-`Init2` send. -/
theorem c10_keepalive_error_accounting_witness :
    stepIter { quietInput with kaFail := true } initialState =
      stepIter quietInput initialState ∧
    (serviceUart ka2FailInput initialState).uartBuf.writeErrors =
      initialState.uartBuf.writeErrors + 0 +
        (if ka2FailInput.ka2Fail then 1 else 0) :=
  ⟨c10_keepalive_error_accounting.1 quietInput initialState true,
   c10_keepalive_error_accounting.2 ka2FailInput initialState
     { pkt := PktType.init2, dValid := 1, dInvalid := 0, dWErr := 0, data2 := 0 }
     rfl rfl⟩

/-- C4 witness: the no-report characterization applied to a run whose
serial open fails. -/
theorem c4_report_witness :
    envNoUart.uartOpenOk = false ∧ (1 : Nat) = 1 :=
  (c4_report_on_all_paths_except_uart_open envNoUart [] 1).mp rfl
